import Mathlib

/-!
# Verification of the geo-tiles quadtree search engine

Shallow embedding of `src/crates/geohash/src/lib.rs`.

Modelling choices:
* Rust `f64` values are modelled as `Option ℚ`: `none` stands for NaN and
  `some q` for a finite value.  Rust comparison operators on `f64` return
  `false` whenever either operand is NaN, and arithmetic propagates NaN;
  both behaviours are reproduced below.  (Infinities, signed zero and
  rounding of the midpoint division are not modelled; every concrete input
  used here is exactly representable and its halvings are exact in `f64`.)
* Rust `u64` is modelled as `ℕ` with an explicit `% 2 ^ 64` where the source
  performs a wrapping shift (`geo_hash << 2` silently discards high bits).
* `LinkedList` push_back / pop_front traversal order is modelled by `List`
  in the same order.
-/

/-- A Rust `f64` value: `none` is NaN, `some q` a finite value. -/
abbrev F64 : Type := Option ℚ

/-- Rust `a >= b` on `f64`: false when either side is NaN. -/
def fge : F64 → F64 → Bool
  | some a, some b => decide (b ≤ a)
  | _, _ => false

/-- Rust `a <= b` on `f64`: false when either side is NaN. -/
def fle : F64 → F64 → Bool
  | some a, some b => decide (a ≤ b)
  | _, _ => false

/-- Rust `a < b` on `f64`: false when either side is NaN. -/
def flt : F64 → F64 → Bool
  | some a, some b => decide (a < b)
  | _, _ => false

/-- Rust `a > b` on `f64`: false when either side is NaN. -/
def fgt : F64 → F64 → Bool
  | some a, some b => decide (b < a)
  | _, _ => false

/-- Rust `a == b` on `f64`: false when either side is NaN. -/
def feq : F64 → F64 → Bool
  | some a, some b => decide (a = b)
  | _, _ => false

/-- Rust `(a + b) / 2.0` on `f64`: NaN propagates. -/
def fmid : F64 → F64 → F64
  | some a, some b => some ((a + b) / 2)
  | _, _ => none

/-- `struct BoundingBox` (lib.rs lines 3-9). -/
structure BoundingBox where
  min_lat : F64
  min_lng : F64
  max_lat : F64
  max_lng : F64

/-- `BoundingBox::intersects` (lib.rs lines 12-21). -/
def BoundingBox.intersects (self b_box2 : BoundingBox) : Bool :=
  if fge self.min_lat b_box2.max_lat
      || fle self.max_lat b_box2.min_lat
      || fge self.min_lng b_box2.max_lng
      || fle self.max_lng b_box2.min_lng
  then false
  else true

/-- `struct GeoHashBBox` (lib.rs lines 24-28). -/
structure GeoHashBBox where
  geo_hash : ℕ
  b_box : BoundingBox

namespace GeoHashBBox

/-- `GeoHashBBox::BOTTOM_LEFT_QUAD` (lib.rs line 57). -/
def BOTTOM_LEFT_QUAD : ℕ := 0b00

/-- `GeoHashBBox::BOTTOM_RIGHT_QUAD` (lib.rs line 58). -/
def BOTTOM_RIGHT_QUAD : ℕ := 0b10

/-- `GeoHashBBox::TOP_RIGHT_QUAD` (lib.rs line 59). -/
def TOP_RIGHT_QUAD : ℕ := 0b11

/-- `GeoHashBBox::TOP_LEFT_QUAD` (lib.rs line 60). -/
def TOP_LEFT_QUAD : ℕ := 0b01

/-- `next_bottom_left_geo_hash` (lib.rs lines 84-86); `<<` on `u64` wraps. -/
def next_bottom_left_geo_hash (self : GeoHashBBox) : ℕ :=
  ((self.geo_hash <<< 2) % 2 ^ 64) ||| BOTTOM_LEFT_QUAD

/-- `next_bottom_right_geo_hash` (lib.rs lines 88-90). -/
def next_bottom_right_geo_hash (self : GeoHashBBox) : ℕ :=
  ((self.geo_hash <<< 2) % 2 ^ 64) ||| BOTTOM_RIGHT_QUAD

/-- `next_top_left_geo_hash` (lib.rs lines 92-94). -/
def next_top_left_geo_hash (self : GeoHashBBox) : ℕ :=
  ((self.geo_hash <<< 2) % 2 ^ 64) ||| TOP_LEFT_QUAD

/-- `next_top_right_geo_hash` (lib.rs lines 96-98). -/
def next_top_right_geo_hash (self : GeoHashBBox) : ℕ :=
  ((self.geo_hash <<< 2) % 2 ^ 64) ||| TOP_RIGHT_QUAD

/-- `next_bottom_left_bounding_box` (lib.rs lines 100-109). -/
def next_bottom_left_bounding_box (self : GeoHashBBox) : BoundingBox :=
  let mid_lat := fmid self.b_box.min_lat self.b_box.max_lat
  let mid_lng := fmid self.b_box.min_lng self.b_box.max_lng
  { min_lat := self.b_box.min_lat
    min_lng := self.b_box.min_lng
    max_lat := mid_lat
    max_lng := mid_lng }

/-- `next_bottom_right_bounding_box` (lib.rs lines 111-120). -/
def next_bottom_right_bounding_box (self : GeoHashBBox) : BoundingBox :=
  let mid_lat := fmid self.b_box.min_lat self.b_box.max_lat
  let mid_lng := fmid self.b_box.min_lng self.b_box.max_lng
  { min_lat := self.b_box.min_lat
    min_lng := mid_lng
    max_lat := mid_lat
    max_lng := self.b_box.max_lng }

/-- `next_top_left_bounding_box` (lib.rs lines 122-131). -/
def next_top_left_bounding_box (self : GeoHashBBox) : BoundingBox :=
  let mid_lat := fmid self.b_box.min_lat self.b_box.max_lat
  let mid_lng := fmid self.b_box.min_lng self.b_box.max_lng
  { min_lat := mid_lat
    min_lng := self.b_box.min_lng
    max_lat := self.b_box.max_lat
    max_lng := mid_lng }

/-- `next_top_right_bounding_box` (lib.rs lines 133-142). -/
def next_top_right_bounding_box (self : GeoHashBBox) : BoundingBox :=
  let mid_lat := fmid self.b_box.min_lat self.b_box.max_lat
  let mid_lng := fmid self.b_box.min_lng self.b_box.max_lng
  { min_lat := mid_lat
    min_lng := mid_lng
    max_lat := self.b_box.max_lat
    max_lng := self.b_box.max_lng }

/-- `next_level_geo_hash_bbox` (lib.rs lines 62-82): the four children in
push_back order bottom-left, top-right, bottom-right, top-left. -/
def next_level_geo_hash_bbox (self : GeoHashBBox) : List GeoHashBBox :=
  [ { geo_hash := self.next_bottom_left_geo_hash
      b_box := self.next_bottom_left_bounding_box }
  , { geo_hash := self.next_top_right_geo_hash
      b_box := self.next_top_right_bounding_box }
  , { geo_hash := self.next_bottom_right_geo_hash
      b_box := self.next_bottom_right_bounding_box }
  , { geo_hash := self.next_top_left_geo_hash
      b_box := self.next_top_left_bounding_box } ]

end GeoHashBBox

/-- One iteration of the `for _ in 0..zoom_level` loop body
(lib.rs lines 41-51): pop every cell of the queue in order, push back the
children that intersect `b_box`, in their generation order. -/
def step (b_box : BoundingBox) : List GeoHashBBox → List GeoHashBBox
  | [] => []
  | front :: rest =>
      front.next_level_geo_hash_bbox.filter
          (fun g => g.b_box.intersects b_box)
        ++ step b_box rest

/-- The whole `for` loop of `geo_hashes_for_bounding_box`
(lib.rs lines 40-52), iterated `zoom_level` times. -/
def searchLoop (b_box : BoundingBox) : ℕ → List GeoHashBBox → List GeoHashBBox
  | 0, queue => queue
  | n + 1, queue => searchLoop b_box n (step b_box queue)

/-- `geo_hashes_for_bounding_box` (lib.rs lines 30-54). -/
def geo_hashes_for_bounding_box
    (world_b_box b_box : BoundingBox) (zoom_level : ℕ) : List ℕ :=
  (searchLoop b_box zoom_level [{ geo_hash := 1, b_box := world_b_box }]).map
    GeoHashBBox.geo_hash

/-! ## General lemmas about the embedded comparisons -/

/-- `a >= b` and `b <= a` agree on `f64` (also through NaN). -/
theorem fge_eq_fle (x y : F64) : fge x y = fle y x := by
  cases x <;> cases y <;> rfl

/-- Comparison with NaN on the right is always false for `>=`. -/
theorem fge_none (x : F64) : fge x none = false := by
  cases x <;> rfl

/-- Comparison with NaN on the right is always false for `<=`. -/
theorem fle_none (x : F64) : fle x none = false := by
  cases x <;> rfl

/-- `fle` is transitive. -/
theorem fle_trans {x y z : F64} (h₁ : fle x y = true) (h₂ : fle y z = true) :
    fle x z = true := by
  cases x with
  | none => simp [fle] at h₁
  | some a =>
    cases y with
    | none => simp [fle] at h₁
    | some b =>
      cases z with
      | none => simp [fle] at h₂
      | some c =>
        simp only [fle, decide_eq_true_eq] at h₁ h₂ ⊢
        exact le_trans h₁ h₂

/-- A value `fle`-below another is `fle`-below itself (it is not NaN). -/
theorem fle_refl_left {x y : F64} (h : fle x y = true) : fle x x = true := by
  cases x with
  | none => simp [fle] at h
  | some a => cases y <;> simp [fle] at h ⊢

/-- A value `fle`-above another is `fle`-above itself (it is not NaN). -/
theorem fle_refl_right {x y : F64} (h : fle x y = true) : fle y y = true := by
  cases y with
  | none => cases x <;> simp [fle] at h
  | some a => cases x <;> simp [fle] at h ⊢

/-- The midpoint of an ordered pair lies above the left endpoint. -/
theorem fle_fmid_left {x y : F64} (h : fle x y = true) :
    fle x (fmid x y) = true := by
  cases x with
  | none => simp [fle] at h
  | some a =>
    cases y with
    | none => simp [fle] at h
    | some b =>
      simp only [fle, fmid, decide_eq_true_eq] at h ⊢
      linarith

/-- The midpoint of an ordered pair lies below the right endpoint. -/
theorem fle_fmid_right {x y : F64} (h : fle x y = true) :
    fle (fmid x y) y = true := by
  cases x with
  | none => simp [fle] at h
  | some a =>
    cases y with
    | none => simp [fle] at h
    | some b =>
      simp only [fle, fmid, decide_eq_true_eq] at h ⊢
      linarith

/-- `f64` equality implies `fle` (both operands are non-NaN and equal). -/
theorem feq_fle {x y : F64} (h : feq x y = true) : fle x y = true := by
  cases x <;> cases y <;> simp_all [feq, fle]

/-- `f64` equality implies `fge` (both operands are non-NaN and equal). -/
theorem feq_fge {x y : F64} (h : feq x y = true) : fge x y = true := by
  cases x <;> cases y <;> simp_all [feq, fge]

/-- `intersects` as the negation of the four-way disjointness test. -/
theorem intersects_eq (a b : BoundingBox) :
    BoundingBox.intersects a b =
      !(fge a.min_lat b.max_lat || fle a.max_lat b.min_lat ||
        fge a.min_lng b.max_lng || fle a.max_lng b.min_lng) := by
  unfold BoundingBox.intersects
  cases h : (fge a.min_lat b.max_lat || fle a.max_lat b.min_lat ||
      fge a.min_lng b.max_lng || fle a.max_lng b.min_lng) <;> simp [h]

/-! ## Box containment, used for the pruning argument -/

/-- `inner` lies inside `outer` on both axes, with ordered bounds
(all eight bounds are in particular non-NaN). -/
def containedIn (inner outer : BoundingBox) : Prop :=
  (fle outer.min_lat inner.min_lat = true ∧ fle inner.min_lat inner.max_lat = true ∧
    fle inner.max_lat outer.max_lat = true) ∧
  (fle outer.min_lng inner.min_lng = true ∧ fle inner.min_lng inner.max_lng = true ∧
    fle inner.max_lng outer.max_lng = true)

/-- Bisection, lower half: the interval from `a` to the midpoint stays inside
an enclosing interval. -/
theorem axis_lower {u v a b : F64} (h₁ : fle u a = true) (h₂ : fle a b = true)
    (h₃ : fle b v = true) :
    fle u a = true ∧ fle a (fmid a b) = true ∧ fle (fmid a b) v = true :=
  ⟨h₁, fle_fmid_left h₂, fle_trans (fle_fmid_right h₂) h₃⟩

/-- Bisection, upper half: the interval from the midpoint to `b` stays inside
an enclosing interval. -/
theorem axis_upper {u v a b : F64} (h₁ : fle u a = true) (h₂ : fle a b = true)
    (h₃ : fle b v = true) :
    fle u (fmid a b) = true ∧ fle (fmid a b) b = true ∧ fle b v = true :=
  ⟨fle_trans h₁ (fle_fmid_left h₂), fle_fmid_right h₂, h₃⟩

/-- Every child produced by `next_level_geo_hash_bbox` stays inside any box
that contains the parent. -/
theorem child_containedIn {w : BoundingBox} {cell g : GeoHashBBox}
    (hc : containedIn cell.b_box w) (hg : g ∈ cell.next_level_geo_hash_bbox) :
    containedIn g.b_box w := by
  obtain ⟨⟨ha₁, ha₂, ha₃⟩, ⟨hb₁, hb₂, hb₃⟩⟩ := hc
  simp only [GeoHashBBox.next_level_geo_hash_bbox, List.mem_cons,
    List.not_mem_nil, or_false] at hg
  rcases hg with hg | hg | hg | hg <;> subst hg
  · exact ⟨axis_lower ha₁ ha₂ ha₃, axis_lower hb₁ hb₂ hb₃⟩
  · exact ⟨axis_upper ha₁ ha₂ ha₃, axis_upper hb₁ hb₂ hb₃⟩
  · exact ⟨axis_lower ha₁ ha₂ ha₃, axis_upper hb₁ hb₂ hb₃⟩
  · exact ⟨axis_upper ha₁ ha₂ ha₃, axis_lower hb₁ hb₂ hb₃⟩

/-- A box inside a region disjoint from the query is itself disjoint from
the query. -/
theorem intersects_false_of_containedIn {w q c : BoundingBox}
    (hc : containedIn c w) (hw : BoundingBox.intersects w q = false) :
    BoundingBox.intersects c q = false := by
  obtain ⟨⟨ha₁, _, ha₃⟩, ⟨hb₁, _, hb₃⟩⟩ := hc
  rw [intersects_eq] at hw ⊢
  simp only [Bool.not_eq_false', Bool.or_eq_true] at hw ⊢
  rcases hw with ((h | h) | h) | h
  · refine Or.inl (Or.inl (Or.inl ?_))
    rw [fge_eq_fle] at h ⊢
    exact fle_trans h ha₁
  · exact Or.inl (Or.inl (Or.inr (fle_trans ha₃ h)))
  · refine Or.inl (Or.inr ?_)
    rw [fge_eq_fle] at h ⊢
    exact fle_trans h hb₁
  · exact Or.inr (fle_trans hb₃ h)

/-! ## Structure of the level-synchronous loop -/

/-- The loop does nothing with an empty frontier. -/
theorem searchLoop_nil (q : BoundingBox) (n : ℕ) : searchLoop q n [] = [] := by
  induction n with
  | zero => rfl
  | succ n ih => exact ih

/-- Peeling the last iteration of the loop instead of the first. -/
theorem searchLoop_succ (q : BoundingBox) (n : ℕ) (F : List GeoHashBBox) :
    searchLoop q (n + 1) F = step q (searchLoop q n F) := by
  induction n generalizing F with
  | zero => rfl
  | succ n ih =>
    calc searchLoop q (n + 1 + 1) F
        = searchLoop q (n + 1) (step q F) := rfl
      _ = step q (searchLoop q n (step q F)) := ih (step q F)
      _ = step q (searchLoop q (n + 1) F) := rfl

/-- Every member of `step q F` is a surviving child of some member of `F`. -/
theorem mem_step {q : BoundingBox} {g : GeoHashBBox} :
    ∀ {F : List GeoHashBBox}, g ∈ step q F →
      ∃ p ∈ F, g ∈ p.next_level_geo_hash_bbox ∧ g.b_box.intersects q = true := by
  intro F
  induction F with
  | nil => intro h; cases h
  | cons c rest ih =>
    intro h
    simp only [step, List.mem_append] at h
    rcases h with h | h
    · rcases List.mem_filter.mp h with ⟨hmem, hint⟩
      exact ⟨c, List.mem_cons_self c rest, hmem, hint⟩
    · rcases ih h with ⟨p, hp, h₁, h₂⟩
      exact ⟨p, List.mem_cons_of_mem c hp, h₁, h₂⟩

/-- Every child code has the form `(parent << 2 mod 2^64) | t` with `t < 4`. -/
theorem code_of_child {p g : GeoHashBBox} (h : g ∈ p.next_level_geo_hash_bbox) :
    ∃ t, t < 4 ∧ g.geo_hash = ((p.geo_hash <<< 2) % 2 ^ 64) ||| t := by
  simp only [GeoHashBBox.next_level_geo_hash_bbox, List.mem_cons,
    List.not_mem_nil, or_false] at h
  rcases h with h | h | h | h <;> subst h
  · exact ⟨0, by norm_num, rfl⟩
  · exact ⟨3, by norm_num, rfl⟩
  · exact ⟨2, by norm_num, rfl⟩
  · exact ⟨1, by norm_num, rfl⟩

/-- Below the wraparound threshold the child code is plain arithmetic:
shifting cannot overflow and the `|||` is an addition. -/
theorem shift_lor_eq {p t : ℕ} (hp : p < 2 ^ 62) (ht : t < 4) :
    ((p <<< 2) % 2 ^ 64) ||| t = 4 * p + t := by
  have ht2 : t < 2 ^ 2 := by simpa using ht
  have hmod : p <<< 2 < 2 ^ 64 := by
    rw [Nat.shiftLeft_eq]
    calc p * 2 ^ 2 < 2 ^ 62 * 2 ^ 2 := mul_lt_mul_of_pos_right hp (by norm_num)
      _ = 2 ^ 64 := by norm_num
  rw [Nat.mod_eq_of_lt hmod, Nat.shiftLeft_eq, Nat.mul_comm p (2 ^ 2),
    ← Nat.mul_add_lt_is_or ht2 p]

/-! ## Code range invariant -/

/-- All codes of a level-`k` frontier lie in `[2^(2k), 2^(2k+1))`. -/
def codesInRange (k : ℕ) (F : List GeoHashBBox) : Prop :=
  ∀ g ∈ F, 2 ^ (2 * k) ≤ g.geo_hash ∧ g.geo_hash < 2 ^ (2 * k + 1)

/-- The root frontier is at level 0: its only code is 1. -/
theorem codesInRange_root (w : BoundingBox) :
    codesInRange 0 [{ geo_hash := 1, b_box := w }] := by
  intro g hg
  simp only [List.mem_singleton] at hg
  subst hg
  norm_num

/-- A level-`k` code is below the wraparound threshold when `k ≤ 30`. -/
theorem code_lt_threshold {k : ℕ} {g : GeoHashBBox} (hk : k ≤ 30)
    (h : g.geo_hash < 2 ^ (2 * k + 1)) : g.geo_hash < 2 ^ 62 :=
  lt_of_lt_of_le h (Nat.pow_le_pow_right (by norm_num) (by omega))

/-- One subdivision moves the code range up one level (no wraparound while
`k ≤ 30`). -/
theorem codesInRange_step {q : BoundingBox} {k : ℕ} {F : List GeoHashBBox}
    (hk : k ≤ 30) (hF : codesInRange k F) :
    codesInRange (k + 1) (step q F) := by
  intro g hg
  rcases mem_step hg with ⟨p, hp, hchild, _⟩
  rcases code_of_child hchild with ⟨t, ht, hcode⟩
  obtain ⟨hp₁, hp₂⟩ := hF p hp
  have hplt : p.geo_hash < 2 ^ 62 := code_lt_threshold hk hp₂
  rw [hcode, shift_lor_eq hplt ht]
  have e₁ : 2 ^ (2 * k + 1) = 2 * 2 ^ (2 * k) := by
    rw [pow_succ]; ring
  have e₂ : 2 ^ (2 * (k + 1)) = 4 * 2 ^ (2 * k) := by
    have h : 2 * (k + 1) = 2 * k + 1 + 1 := by ring
    rw [h, pow_succ, pow_succ]; ring
  have e₃ : 2 ^ (2 * (k + 1) + 1) = 8 * 2 ^ (2 * k) := by
    have h : 2 * (k + 1) + 1 = 2 * k + 1 + 1 + 1 := by ring
    rw [h, pow_succ, pow_succ, pow_succ]; ring
  rw [e₁] at hp₂
  rw [e₂, e₃]
  omega

/-- Iterating the loop `n` times moves the code range up `n` levels. -/
theorem codesInRange_searchLoop {q : BoundingBox} (n : ℕ) :
    ∀ {k : ℕ} {F : List GeoHashBBox}, k + n ≤ 31 → codesInRange k F →
      codesInRange (k + n) (searchLoop q n F) := by
  induction n with
  | zero => intro k F _ hF; exact hF
  | succ n ih =>
    intro k F hk hF
    have h₁ : codesInRange (k + 1) (step q F) :=
      codesInRange_step (by omega) hF
    have h₂ := ih (by omega : k + 1 + n ≤ 31) h₁
    have e : k + 1 + n = k + (n + 1) := by omega
    rw [e] at h₂
    exact h₂

/-- All codes in the result lie in `[2^(2d), 2^(2d+1))` when `d ≤ 31`. -/
theorem result_codesInRange (w q : BoundingBox) (d : ℕ) (hd : d ≤ 31) :
    ∀ c ∈ geo_hashes_for_bounding_box w q d,
      2 ^ (2 * d) ≤ c ∧ c < 2 ^ (2 * d + 1) := by
  intro c hc
  rcases List.mem_map.mp hc with ⟨g, hg, rfl⟩
  have h := codesInRange_searchLoop (q := q) d (by omega : 0 + d ≤ 31) (codesInRange_root w)
  rw [Nat.zero_add] at h
  exact h g hg

/-! ## Distinctness of codes -/

/-- The four children of one parent get four distinct codes (below the
wraparound threshold). -/
theorem nodup_children_codes {p : GeoHashBBox} (hp : p.geo_hash < 2 ^ 62) :
    (p.next_level_geo_hash_bbox.map GeoHashBBox.geo_hash).Nodup := by
  have h₀ := shift_lor_eq hp (show (0 : ℕ) < 4 by norm_num)
  have h₁ := shift_lor_eq hp (show (1 : ℕ) < 4 by norm_num)
  have h₂ := shift_lor_eq hp (show (2 : ℕ) < 4 by norm_num)
  have h₃ := shift_lor_eq hp (show (3 : ℕ) < 4 by norm_num)
  simp only [GeoHashBBox.next_level_geo_hash_bbox, List.map_cons, List.map_nil,
    GeoHashBBox.next_bottom_left_geo_hash, GeoHashBBox.next_top_right_geo_hash,
    GeoHashBBox.next_bottom_right_geo_hash, GeoHashBBox.next_top_left_geo_hash,
    GeoHashBBox.BOTTOM_LEFT_QUAD, GeoHashBBox.TOP_RIGHT_QUAD,
    GeoHashBBox.BOTTOM_RIGHT_QUAD, GeoHashBBox.TOP_LEFT_QUAD, h₀, h₁, h₂, h₃,
    List.nodup_cons, List.mem_cons, List.not_mem_nil, List.nodup_nil,
    or_false, and_true, not_false_iff]
  omega

/-- Distinct parents below the threshold have disjoint child codes. -/
theorem child_code_inj {a b : GeoHashBBox} {s t : ℕ}
    (ha : a.geo_hash < 2 ^ 62) (hb : b.geo_hash < 2 ^ 62)
    (hs : s < 4) (ht : t < 4)
    (h : ((a.geo_hash <<< 2) % 2 ^ 64) ||| s = ((b.geo_hash <<< 2) % 2 ^ 64) ||| t) :
    a.geo_hash = b.geo_hash := by
  rw [shift_lor_eq ha hs, shift_lor_eq hb ht] at h
  omega

/-- One loop iteration keeps the emitted codes pairwise distinct. -/
theorem nodup_codes_step {q : BoundingBox} {k : ℕ} (hk : k ≤ 30) :
    ∀ {F : List GeoHashBBox}, codesInRange k F →
      (F.map GeoHashBBox.geo_hash).Nodup →
      ((step q F).map GeoHashBBox.geo_hash).Nodup := by
  intro F
  induction F with
  | nil => intro _ _; simp [step]
  | cons c rest ih =>
    intro hR hN
    have hcR := hR c (List.mem_cons_self c rest)
    have hrestR : codesInRange k rest := fun g hg => hR g (List.mem_cons_of_mem c hg)
    have hclt : c.geo_hash < 2 ^ 62 := code_lt_threshold hk hcR.2
    simp only [List.map_cons, List.nodup_cons] at hN
    obtain ⟨hNc, hNrest⟩ := hN
    simp only [step, List.map_append]
    apply List.Nodup.append
    · exact List.Nodup.sublist
        (List.Sublist.map GeoHashBBox.geo_hash (List.filter_sublist _))
        (nodup_children_codes hclt)
    · exact ih hrestR hNrest
    · intro x hx hy
      rcases List.mem_map.mp hx with ⟨g, hg, rfl⟩
      have hgc : g ∈ c.next_level_geo_hash_bbox := List.mem_of_mem_filter hg
      rcases code_of_child hgc with ⟨s, hs, hcode₁⟩
      rcases List.mem_map.mp hy with ⟨g', hg', hcode⟩
      rcases mem_step hg' with ⟨p, hp, hchild, _⟩
      rcases code_of_child hchild with ⟨t, ht, hcode₂⟩
      have hplt : p.geo_hash < 2 ^ 62 := code_lt_threshold hk (hrestR p hp).2
      have heq : c.geo_hash = p.geo_hash := by
        apply child_code_inj hclt hplt hs ht
        rw [← hcode₁, ← hcode]
        exact hcode₂
      exact hNc (heq ▸ List.mem_map.mpr ⟨p, hp, rfl⟩)

/-- The whole loop keeps the emitted codes pairwise distinct. -/
theorem nodup_codes_searchLoop {q : BoundingBox} (n : ℕ) :
    ∀ {k : ℕ} {F : List GeoHashBBox}, k + n ≤ 31 → codesInRange k F →
      (F.map GeoHashBBox.geo_hash).Nodup →
      ((searchLoop q n F).map GeoHashBBox.geo_hash).Nodup := by
  induction n with
  | zero => intro k F _ _ hN; exact hN
  | succ n ih =>
    intro k F hk hR hN
    exact ih (k := k + 1) (by omega) (codesInRange_step (by omega) hR)
      (nodup_codes_step (by omega) hR hN)

/-! ## NaN query behaviour -/

/-- Against a query box whose four bounds are NaN, every box intersects:
all four disjointness comparisons return false. -/
theorem intersects_nan (b q : BoundingBox) (h₁ : q.min_lat = none)
    (h₂ : q.min_lng = none) (h₃ : q.max_lat = none) (h₄ : q.max_lng = none) :
    BoundingBox.intersects b q = true := by
  rw [intersects_eq, h₁, h₂, h₃, h₄, fge_none, fle_none, fge_none, fle_none]
  rfl

/-- With a NaN query no child is ever pruned: one iteration exactly
quadruples the frontier. -/
theorem step_length_nan {q : BoundingBox} (h₁ : q.min_lat = none)
    (h₂ : q.min_lng = none) (h₃ : q.max_lat = none) (h₄ : q.max_lng = none)
    (F : List GeoHashBBox) : (step q F).length = 4 * F.length := by
  induction F with
  | nil => rfl
  | cons c rest ih =>
    have hfil : (c.next_level_geo_hash_bbox.filter
        fun g => g.b_box.intersects q) = c.next_level_geo_hash_bbox :=
      List.filter_eq_self.mpr fun g _ => intersects_nan g.b_box q h₁ h₂ h₃ h₄
    simp only [step, List.length_append, ih]
    rw [hfil]
    simp only [GeoHashBBox.next_level_geo_hash_bbox, List.length_cons,
      List.length_nil]
    omega

/-- With a NaN query the frontier size is exactly `4^n` times the start. -/
theorem searchLoop_length_nan {q : BoundingBox} (h₁ : q.min_lat = none)
    (h₂ : q.min_lng = none) (h₃ : q.max_lat = none) (h₄ : q.max_lng = none)
    (n : ℕ) : ∀ F : List GeoHashBBox,
      (searchLoop q n F).length = 4 ^ n * F.length := by
  induction n with
  | zero => intro F; simp [searchLoop]
  | succ n ih =>
    intro F
    calc (searchLoop q n (step q F)).length
        = 4 ^ n * (step q F).length := ih (step q F)
      _ = 4 ^ n * (4 * F.length) := by rw [step_length_nan h₁ h₂ h₃ h₄]
      _ = 4 ^ (n + 1) * F.length := by ring

/-! ## The claims -/

/-- Claim C1, counterexample: with NaN bounds on one side the strict
conjunction `min < max ∧ ...` is false, yet `intersects` returns true, so
the claimed equivalence fails for unrestricted `f64` bounds. -/
theorem C1_counterexample :
    ¬ ((BoundingBox.intersects ⟨some 0, some 0, some 1, some 1⟩
          ⟨none, none, none, none⟩ = true) ↔
        (flt (some 0) none = true ∧ fgt (some 1) none = true ∧
         flt (some 0) none = true ∧ fgt (some 1) none = true)) := by
  decide

/-- Claim C1, amended to non-NaN (finite) bounds: `intersects` returns true
exactly when `A.min_lat < B.max_lat`, `A.max_lat > B.min_lat`,
`A.min_lng < B.max_lng` and `A.max_lng > B.min_lng`. -/
theorem C1_intersects_iff_finite (a₁ a₂ a₃ a₄ b₁ b₂ b₃ b₄ : ℚ) :
    BoundingBox.intersects ⟨some a₁, some a₂, some a₃, some a₄⟩
        ⟨some b₁, some b₂, some b₃, some b₄⟩ = true ↔
      (a₁ < b₃ ∧ a₃ > b₁ ∧ a₂ < b₄ ∧ a₄ > b₂) := by
  rw [intersects_eq]
  simp only [fge, fle, Bool.not_eq_true', Bool.or_eq_false_iff,
    decide_eq_false_iff_not, not_le, gt_iff_lt]
  tauto

/-- Claim C5: at depth 0 the loop body never runs and the root code 1 is
returned unconditionally, for all world and query boxes. -/
theorem C5_depth_zero (w q : BoundingBox) :
    geo_hashes_for_bounding_box w q 0 = [1] := rfl

/-- Claim C6: one subdivision yields exactly the four children
`(parent_code << 2) | tag` in emission order lower-lower (tag `0b00`),
upper-upper (`0b11`), lower-upper (`0b10`), upper-lower (`0b01`), where the
lower/upper halves of each axis run from the bound to the midpoint and from
the midpoint to the bound respectively. -/
theorem C6_children (g : GeoHashBBox) :
    g.next_level_geo_hash_bbox =
      [ ⟨((g.geo_hash <<< 2) % 2 ^ 64) ||| 0b00,
          ⟨g.b_box.min_lat, g.b_box.min_lng,
            fmid g.b_box.min_lat g.b_box.max_lat,
            fmid g.b_box.min_lng g.b_box.max_lng⟩⟩
      , ⟨((g.geo_hash <<< 2) % 2 ^ 64) ||| 0b11,
          ⟨fmid g.b_box.min_lat g.b_box.max_lat,
            fmid g.b_box.min_lng g.b_box.max_lng,
            g.b_box.max_lat, g.b_box.max_lng⟩⟩
      , ⟨((g.geo_hash <<< 2) % 2 ^ 64) ||| 0b10,
          ⟨g.b_box.min_lat, fmid g.b_box.min_lng g.b_box.max_lng,
            fmid g.b_box.min_lat g.b_box.max_lat, g.b_box.max_lng⟩⟩
      , ⟨((g.geo_hash <<< 2) % 2 ^ 64) ||| 0b01,
          ⟨fmid g.b_box.min_lat g.b_box.max_lat, g.b_box.min_lng,
            g.b_box.max_lat, fmid g.b_box.min_lng g.b_box.max_lng⟩⟩ ] := rfl

/-- Claim C8: two boxes with an equal bound across one axis (in the Rust
`==` sense, which excludes NaN) never intersect: the strict test treats a
shared edge or corner as disjoint. -/
theorem C8_boundary_touch (A B : BoundingBox)
    (h : feq A.max_lat B.min_lat = true ∨ feq A.max_lng B.min_lng = true ∨
      feq A.min_lat B.max_lat = true ∨ feq A.min_lng B.max_lng = true) :
    BoundingBox.intersects A B = false := by
  rw [intersects_eq]
  simp only [Bool.not_eq_false', Bool.or_eq_true]
  rcases h with h | h | h | h
  · exact Or.inl (Or.inl (Or.inr (feq_fle h)))
  · exact Or.inr (feq_fle h)
  · exact Or.inl (Or.inl (Or.inl (feq_fge h)))
  · exact Or.inl (Or.inr (feq_fge h))

/-- Witness for C8 at a concrete input: two boxes sharing the edge
`lat = 2`. -/
theorem C8_witness :
    BoundingBox.intersects ⟨some 0, some 0, some 2, some 2⟩
      ⟨some 2, some 0, some 3, some 2⟩ = false :=
  C8_boundary_touch _ _ (Or.inl (by decide))

/-- Claim C9: with an all-NaN query box nothing is ever pruned and the
result has exactly `4^d` codes. -/
theorem C9_nan_query (w q : BoundingBox) (d : ℕ) (h₁ : q.min_lat = none)
    (h₂ : q.min_lng = none) (h₃ : q.max_lat = none) (h₄ : q.max_lng = none) :
    (geo_hashes_for_bounding_box w q d).length = 4 ^ d := by
  unfold geo_hashes_for_bounding_box
  rw [List.length_map, searchLoop_length_nan h₁ h₂ h₃ h₄]
  simp

/-- Witness for C9 at a concrete input: depth 1 with an all-NaN query
returns 4 codes. -/
theorem C9_witness :
    (geo_hashes_for_bounding_box ⟨some 0, some 0, some 1, some 1⟩
      ⟨none, none, none, none⟩ 1).length = 4 ^ 1 :=
  C9_nan_query _ _ 1 rfl rfl rfl rfl

set_option maxRecDepth 100000

/-- Claim C2, counterexample: `u64` shifting wraps, so at depth 32 the
sentinel bit is lost.  World `(0,0,2^40,2^40)` with the point query
`2^-50` keeps exactly one cell alive per level (always the bottom-left
child), and the depth-32 result is `[0]`, whose single code violates
`2^(2*32) ≤ c`. -/
theorem C2_counterexample :
    geo_hashes_for_bounding_box ⟨some 0, some 0, some (2 ^ 40), some (2 ^ 40)⟩
        ⟨some (1 / 2 ^ 50), some (1 / 2 ^ 50), some (1 / 2 ^ 50),
          some (1 / 2 ^ 50)⟩ 32 = [0] ∧
    ¬ 2 ^ (2 * 32) ≤ (0 : ℕ) := by
  constructor
  · norm_num [geo_hashes_for_bounding_box, searchLoop, step,
      BoundingBox.intersects, GeoHashBBox.next_level_geo_hash_bbox,
      GeoHashBBox.next_bottom_left_geo_hash, GeoHashBBox.next_bottom_right_geo_hash,
      GeoHashBBox.next_top_left_geo_hash, GeoHashBBox.next_top_right_geo_hash,
      GeoHashBBox.next_bottom_left_bounding_box, GeoHashBBox.next_bottom_right_bounding_box,
      GeoHashBBox.next_top_left_bounding_box, GeoHashBBox.next_top_right_bounding_box,
      GeoHashBBox.BOTTOM_LEFT_QUAD, GeoHashBBox.BOTTOM_RIGHT_QUAD,
      GeoHashBBox.TOP_LEFT_QUAD, GeoHashBBox.TOP_RIGHT_QUAD,
      fge, fle, fmid, List.filter]
    all_goals decide
  · norm_num

/-- Claim C2, amended to `d ≤ 31` (below the wraparound threshold): every
returned code `c` satisfies `2^(2d) ≤ c < 2^(2d+1)`, i.e. has bit-length
exactly `2d+1`. -/
theorem C2_code_bit_length (w q : BoundingBox) (d c : ℕ) (hd : d ≤ 31)
    (hc : c ∈ geo_hashes_for_bounding_box w q d) :
    2 ^ (2 * d) ≤ c ∧ c < 2 ^ (2 * d + 1) :=
  result_codesInRange w q d hd c hc

/-- Witness for C2 at a concrete input: code 4 at depth 1 over the full
world box. -/
theorem C2_witness :
    4 ∈ geo_hashes_for_bounding_box ⟨some (-90), some (-180), some 90, some 180⟩
        ⟨some (-90), some (-180), some 90, some 180⟩ 1 ∧
    2 ^ (2 * 1) ≤ 4 ∧ 4 < 2 ^ (2 * 1 + 1) := by
  have h : geo_hashes_for_bounding_box ⟨some (-90), some (-180), some 90, some 180⟩
      ⟨some (-90), some (-180), some 90, some 180⟩ 1 = [4, 7, 6, 5] := by
    norm_num [geo_hashes_for_bounding_box, searchLoop, step,
      BoundingBox.intersects, GeoHashBBox.next_level_geo_hash_bbox,
      GeoHashBBox.next_bottom_left_geo_hash, GeoHashBBox.next_bottom_right_geo_hash,
      GeoHashBBox.next_top_left_geo_hash, GeoHashBBox.next_top_right_geo_hash,
      GeoHashBBox.next_bottom_left_bounding_box, GeoHashBBox.next_bottom_right_bounding_box,
      GeoHashBBox.next_top_left_bounding_box, GeoHashBBox.next_top_right_bounding_box,
      GeoHashBBox.BOTTOM_LEFT_QUAD, GeoHashBBox.BOTTOM_RIGHT_QUAD,
      GeoHashBBox.TOP_LEFT_QUAD, GeoHashBBox.TOP_RIGHT_QUAD,
      fge, fle, fmid, List.filter]
    all_goals decide
  have h4 : 4 ∈ geo_hashes_for_bounding_box ⟨some (-90), some (-180), some 90, some 180⟩
      ⟨some (-90), some (-180), some 90, some 180⟩ 1 := by
    rw [h]; decide
  exact ⟨h4, C2_code_bit_length _ _ 1 4 (by norm_num) h4⟩

/-- Claim C3, counterexample: with an inverted world box (min_lat >
max_lat) disjoint from the query, a child box escapes its parent and the
depth-1 result is nonempty. -/
theorem C3_counterexample :
    BoundingBox.intersects ⟨some 10, some 0, some 0, some 100⟩
        ⟨some 2, some 0, some 20, some 100⟩ = false ∧
    geo_hashes_for_bounding_box ⟨some 10, some 0, some 0, some 100⟩
        ⟨some 2, some 0, some 20, some 100⟩ 1 ≠ [] := by
  constructor
  · decide
  · norm_num [geo_hashes_for_bounding_box, searchLoop, step,
      BoundingBox.intersects, GeoHashBBox.next_level_geo_hash_bbox,
      GeoHashBBox.next_bottom_left_geo_hash, GeoHashBBox.next_bottom_right_geo_hash,
      GeoHashBBox.next_top_left_geo_hash, GeoHashBBox.next_top_right_geo_hash,
      GeoHashBBox.next_bottom_left_bounding_box, GeoHashBBox.next_bottom_right_bounding_box,
      GeoHashBBox.next_top_left_bounding_box, GeoHashBBox.next_top_right_bounding_box,
      GeoHashBBox.BOTTOM_LEFT_QUAD, GeoHashBBox.BOTTOM_RIGHT_QUAD,
      GeoHashBBox.TOP_LEFT_QUAD, GeoHashBBox.TOP_RIGHT_QUAD,
      fge, fle, fmid, List.filter]
    all_goals decide

/-- Claim C3, amended to a well-formed world box: min ≤ max on both axes
(which also rules out NaN world bounds) and all four world bounds of
magnitude at most `2^1022`.  The magnitude bound is where the exact
midpoint model is faithful to `f64`: with `|min|, |max| ≤ 2^1022` the sum
`min + max` cannot overflow to infinity, and the rounded `f64` midpoint —
like the exact one — always lies between `min` and `max`, which is the only
property of midpoints the pruning argument uses.  (At larger magnitudes
`(min + max) / 2.0` can overflow to `+inf`, a child box escapes the world
box, and the program can return a nonempty result for a disjoint query, so
the restriction is necessary, not convenience.)  Under these hypotheses a
query disjoint from the world yields the empty result at every depth ≥ 1. -/
theorem C3_disjoint_empty (w q : BoundingBox) (d : ℕ)
    (hlat : fle w.min_lat w.max_lat = true)
    (hlng : fle w.min_lng w.max_lng = true)
    (_hlo₁ : fle (some (-(2 ^ 1022))) w.min_lat = true)
    (_hhi₁ : fle w.max_lat (some (2 ^ 1022)) = true)
    (_hlo₂ : fle (some (-(2 ^ 1022))) w.min_lng = true)
    (_hhi₂ : fle w.max_lng (some (2 ^ 1022)) = true)
    (hdisj : BoundingBox.intersects w q = false) (hd : 1 ≤ d) :
    geo_hashes_for_bounding_box w q d = [] := by
  obtain ⟨n, rfl⟩ : ∃ n, d = n + 1 := ⟨d - 1, by omega⟩
  have hroot : containedIn w w :=
    ⟨⟨fle_refl_left hlat, hlat, fle_refl_right hlat⟩,
     ⟨fle_refl_left hlng, hlng, fle_refl_right hlng⟩⟩
  have hstep : step q [{ geo_hash := 1, b_box := w }] = [] := by
    have hfil : List.filter (fun g => g.b_box.intersects q)
        (GeoHashBBox.next_level_geo_hash_bbox { geo_hash := 1, b_box := w }) = [] := by
      refine List.filter_eq_nil_iff.mpr fun g hg => ?_
      have hcont : containedIn g.b_box w := child_containedIn hroot hg
      simp [intersects_false_of_containedIn hcont hdisj]
    simp only [step, hfil, List.append_nil]
  unfold geo_hashes_for_bounding_box
  have hpeel : searchLoop q (n + 1) [{ geo_hash := 1, b_box := w }]
      = searchLoop q n (step q [{ geo_hash := 1, b_box := w }]) := rfl
  rw [hpeel, hstep, searchLoop_nil]
  rfl

/-- Witness for C3 at a concrete input: disjoint unit boxes, depth 1. -/
theorem C3_witness :
    geo_hashes_for_bounding_box ⟨some 0, some 0, some 1, some 1⟩
      ⟨some 5, some 5, some 6, some 6⟩ 1 = [] :=
  C3_disjoint_empty _ _ 1 (by decide) (by decide)
    (by norm_num [fle]) (by norm_num [fle]) (by norm_num [fle])
    (by norm_num [fle]) (by decide) (by norm_num)

/-- Claim C4, counterexample: at depth 32 the wrapped code 0 is returned,
but its alleged parent `0 >> 2 = 0` is not among the depth-31 codes
(which all still carry the sentinel bit `2^62`). -/
theorem C4_counterexample :
    geo_hashes_for_bounding_box ⟨some 0, some 0, some (2 ^ 40), some (2 ^ 40)⟩
        ⟨some (1 / 2 ^ 50), some (1 / 2 ^ 50), some (1 / 2 ^ 50),
          some (1 / 2 ^ 50)⟩ 32 = [0] ∧
    geo_hashes_for_bounding_box ⟨some 0, some 0, some (2 ^ 40), some (2 ^ 40)⟩
        ⟨some (1 / 2 ^ 50), some (1 / 2 ^ 50), some (1 / 2 ^ 50),
          some (1 / 2 ^ 50)⟩ 31 = [2 ^ 62] ∧
    (0 : ℕ) >>> 2 ∉ [(2 : ℕ) ^ 62] := by
  refine ⟨?_, ?_, ?_⟩
  · norm_num [geo_hashes_for_bounding_box, searchLoop, step,
      BoundingBox.intersects, GeoHashBBox.next_level_geo_hash_bbox,
      GeoHashBBox.next_bottom_left_geo_hash, GeoHashBBox.next_bottom_right_geo_hash,
      GeoHashBBox.next_top_left_geo_hash, GeoHashBBox.next_top_right_geo_hash,
      GeoHashBBox.next_bottom_left_bounding_box, GeoHashBBox.next_bottom_right_bounding_box,
      GeoHashBBox.next_top_left_bounding_box, GeoHashBBox.next_top_right_bounding_box,
      GeoHashBBox.BOTTOM_LEFT_QUAD, GeoHashBBox.BOTTOM_RIGHT_QUAD,
      GeoHashBBox.TOP_LEFT_QUAD, GeoHashBBox.TOP_RIGHT_QUAD,
      fge, fle, fmid, List.filter]
    all_goals decide
  · norm_num [geo_hashes_for_bounding_box, searchLoop, step,
      BoundingBox.intersects, GeoHashBBox.next_level_geo_hash_bbox,
      GeoHashBBox.next_bottom_left_geo_hash, GeoHashBBox.next_bottom_right_geo_hash,
      GeoHashBBox.next_top_left_geo_hash, GeoHashBBox.next_top_right_geo_hash,
      GeoHashBBox.next_bottom_left_bounding_box, GeoHashBBox.next_bottom_right_bounding_box,
      GeoHashBBox.next_top_left_bounding_box, GeoHashBBox.next_top_right_bounding_box,
      GeoHashBBox.BOTTOM_LEFT_QUAD, GeoHashBBox.BOTTOM_RIGHT_QUAD,
      GeoHashBBox.TOP_LEFT_QUAD, GeoHashBBox.TOP_RIGHT_QUAD,
      fge, fle, fmid, List.filter]
    all_goals decide
  · decide

/-- Claim C4, amended to `d ≤ 30` (so that depth `d+1` is still below the
wraparound threshold): every code returned at depth `d+1` has its parent
`c >> 2` in the depth-`d` result. -/
theorem C4_parent_present (w q : BoundingBox) (d c : ℕ) (hd : d ≤ 30)
    (hc : c ∈ geo_hashes_for_bounding_box w q (d + 1)) :
    c >>> 2 ∈ geo_hashes_for_bounding_box w q d := by
  unfold geo_hashes_for_bounding_box at hc ⊢
  rw [searchLoop_succ] at hc
  rcases List.mem_map.mp hc with ⟨g, hg, rfl⟩
  rcases mem_step hg with ⟨p, hp, hchild, _⟩
  rcases code_of_child hchild with ⟨t, ht, hcode⟩
  have hrange := codesInRange_searchLoop (q := q) d (by omega : 0 + d ≤ 31)
    (codesInRange_root w)
  rw [Nat.zero_add] at hrange
  have hplt : p.geo_hash < 2 ^ 62 := code_lt_threshold hd (hrange p hp).2
  rw [hcode, shift_lor_eq hplt ht]
  have hdiv : (4 * p.geo_hash + t) >>> 2 = p.geo_hash := by
    rw [Nat.shiftRight_eq_div_pow]
    have h₄ : (2 : ℕ) ^ 2 = 4 := rfl
    rw [h₄]
    omega
  rw [hdiv]
  exact List.mem_map.mpr ⟨p, hp, rfl⟩

/-- Witness for C4 at a concrete input: the depth-2 code 28 over the full
world box has its parent 7 in the depth-1 result. -/
theorem C4_witness :
    28 ∈ geo_hashes_for_bounding_box ⟨some (-90), some (-180), some 90, some 180⟩
        ⟨some 1, some 1, some 3, some 3⟩ 2 ∧
    28 >>> 2 ∈ geo_hashes_for_bounding_box
        ⟨some (-90), some (-180), some 90, some 180⟩
        ⟨some 1, some 1, some 3, some 3⟩ 1 := by
  have h : geo_hashes_for_bounding_box ⟨some (-90), some (-180), some 90, some 180⟩
      ⟨some 1, some 1, some 3, some 3⟩ 2 = [28] := by
    norm_num [geo_hashes_for_bounding_box, searchLoop, step,
      BoundingBox.intersects, GeoHashBBox.next_level_geo_hash_bbox,
      GeoHashBBox.next_bottom_left_geo_hash, GeoHashBBox.next_bottom_right_geo_hash,
      GeoHashBBox.next_top_left_geo_hash, GeoHashBBox.next_top_right_geo_hash,
      GeoHashBBox.next_bottom_left_bounding_box, GeoHashBBox.next_bottom_right_bounding_box,
      GeoHashBBox.next_top_left_bounding_box, GeoHashBBox.next_top_right_bounding_box,
      GeoHashBBox.BOTTOM_LEFT_QUAD, GeoHashBBox.BOTTOM_RIGHT_QUAD,
      GeoHashBBox.TOP_LEFT_QUAD, GeoHashBBox.TOP_RIGHT_QUAD,
      fge, fle, fmid, List.filter]
    all_goals decide
  have h28 : 28 ∈ geo_hashes_for_bounding_box
      ⟨some (-90), some (-180), some 90, some 180⟩
      ⟨some 1, some 1, some 3, some 3⟩ 2 := by
    rw [h]; decide
  exact ⟨h28, C4_parent_present _ _ 1 28 (by norm_num) h28⟩

/-- Claim C7: the two pinned concrete scenarios over the full world box:
query `(1,1,3,3)` at depth 2 returns exactly `[0b11100]`, and query
`(44,46,50,50)` at depth 3 returns exactly `[0b1110011, 0b1110110]` in that
order. -/
theorem C7_concrete_scenarios :
    geo_hashes_for_bounding_box ⟨some (-90), some (-180), some 90, some 180⟩
        ⟨some 1, some 1, some 3, some 3⟩ 2 = [0b11100] ∧
    geo_hashes_for_bounding_box ⟨some (-90), some (-180), some 90, some 180⟩
        ⟨some 44, some 46, some 50, some 50⟩ 3 = [0b1110011, 0b1110110] := by
  constructor
  · norm_num [geo_hashes_for_bounding_box, searchLoop, step,
      BoundingBox.intersects, GeoHashBBox.next_level_geo_hash_bbox,
      GeoHashBBox.next_bottom_left_geo_hash, GeoHashBBox.next_bottom_right_geo_hash,
      GeoHashBBox.next_top_left_geo_hash, GeoHashBBox.next_top_right_geo_hash,
      GeoHashBBox.next_bottom_left_bounding_box, GeoHashBBox.next_bottom_right_bounding_box,
      GeoHashBBox.next_top_left_bounding_box, GeoHashBBox.next_top_right_bounding_box,
      GeoHashBBox.BOTTOM_LEFT_QUAD, GeoHashBBox.BOTTOM_RIGHT_QUAD,
      GeoHashBBox.TOP_LEFT_QUAD, GeoHashBBox.TOP_RIGHT_QUAD,
      fge, fle, fmid, List.filter]
    all_goals decide
  · norm_num [geo_hashes_for_bounding_box, searchLoop, step,
      BoundingBox.intersects, GeoHashBBox.next_level_geo_hash_bbox,
      GeoHashBBox.next_bottom_left_geo_hash, GeoHashBBox.next_bottom_right_geo_hash,
      GeoHashBBox.next_top_left_geo_hash, GeoHashBBox.next_top_right_geo_hash,
      GeoHashBBox.next_bottom_left_bounding_box, GeoHashBBox.next_bottom_right_bounding_box,
      GeoHashBBox.next_top_left_bounding_box, GeoHashBBox.next_top_right_bounding_box,
      GeoHashBBox.BOTTOM_LEFT_QUAD, GeoHashBBox.BOTTOM_RIGHT_QUAD,
      GeoHashBBox.TOP_LEFT_QUAD, GeoHashBBox.TOP_RIGHT_QUAD,
      fge, fle, fmid, List.filter]
    all_goals decide

/-- Claim C10: below the wraparound threshold (`d ≤ 31`) the returned
codes are pairwise distinct. -/
theorem C10_distinct_codes (w q : BoundingBox) (d : ℕ) (hd : d ≤ 31) :
    (geo_hashes_for_bounding_box w q d).Nodup := by
  unfold geo_hashes_for_bounding_box
  exact nodup_codes_searchLoop (q := q) d (by omega : 0 + d ≤ 31)
    (codesInRange_root w) (by simp)

/-- Witness for C10 at a concrete input: full world box, depth 1. -/
theorem C10_witness :
    (geo_hashes_for_bounding_box ⟨some (-90), some (-180), some 90, some 180⟩
      ⟨some (-90), some (-180), some 90, some 180⟩ 1).Nodup :=
  C10_distinct_codes _ _ 1 (by norm_num)
